import Mathlib

/-!
Verification of the r2-webdav-deploy worker (src/index.ts): a read-only HTTP
gateway over an R2-style object store.  The TypeScript source is shallowly
embedded below: the bucket is a pair of pure functions (list / get), the
paginated generator `listAll` becomes a fuel-indexed recursion that also
records the cursor passed at each store call, and every handler returns the
response together with the trace of store operations it performed.
-/

namespace R2Webdav

/-- HTTP metadata carried by a stored object (`R2HTTPMetadata`).
`cacheExpiry` is modelled as its already-serialized ISO string. -/
structure HttpMetadata where
  contentType : Option String
  contentDisposition : Option String
  contentEncoding : Option String
  contentLanguage : Option String
  cacheControl : Option String
  cacheExpiry : Option String
deriving DecidableEq

/-- The structured range the store attaches to a fetched object: either a
suffix shape (`'suffix' in object.range`) or the offset/length shape with
both fields optional. -/
inductive R2Range where
  | suffix (suffix : Nat)
  | offsetLength (offset : Option Nat) (length : Option Nat)
deriving DecidableEq

/-- A store object as the worker sees it: key, byte size, optional HTTP
metadata, custom metadata map, and the resolved range (present only on
objects fetched with a range request). -/
structure R2Obj where
  key : String
  size : Nat
  httpMetadata : Option HttpMetadata
  customMetadata : List (String × String)
  range : Option R2Range
deriving DecidableEq

/-- Result of `bucket.get`: `null`, a metadata-only object (no `body` field,
conditional precondition failed), or an object with a body. -/
inductive GetResult where
  | missing
  | noBody (obj : R2Obj)
  | withBody (obj : R2Obj) (body : String)
deriving DecidableEq

/-- One page returned by `bucket.list`: objects, the `truncated` flag and
the continuation cursor (meaningful only when `truncated` is true). -/
structure ListResult where
  objects : List R2Obj
  truncated : Bool
  cursor : String
deriving DecidableEq

/-- The store collaborator: `list pfx delimiter cursor` and `get key`.
The conditional (`onlyIf`) and range headers the worker forwards are
already folded into what `get` returns for a key. -/
structure Bucket where
  list : String → Option String → Option String → ListResult
  get : String → GetResult

/-- A store operation, recorded in the trace a handler produces. -/
inductive StoreOp where
  | listOp (pfx : String) (delimiter : Option String) (cursor : Option String)
  | getOp (key : String)
deriving DecidableEq

/-- A request URL, kept in parsed form: `urlString` reassembles the full
string that `request.url` holds, `pathname` is what `new URL(...).pathname`
extracts. -/
structure Url where
  base : String
  pathname : String
  search : String
deriving DecidableEq

/-- The full URL string, as `request.url` carries it. -/
def urlString (u : Url) : String :=
  u.base ++ u.pathname ++ u.search

/-- JS `String.prototype.endsWith`, on the character-sequence view of a
string (kept structural so concrete instances evaluate). -/
def strEndsWith (s sfx : String) : Bool :=
  sfx.data.isSuffixOf s.data

/-- JS `String.prototype.startsWith`. -/
def strStartsWith (s pre : String) : Bool :=
  pre.data.isPrefixOf s.data

/-- JS `String.prototype.slice(n)` for non-negative `n`. -/
def strDrop (s : String) (n : Nat) : String :=
  String.mk (s.data.drop n)

/-- JS `String.prototype.slice(0, len - n)`, i.e. dropping the last `n`
characters (`slice(0, -1)` is `strDropRight s 1`). -/
def strDropRight (s : String) (n : Nat) : String :=
  String.mk (s.data.take (s.data.length - n))

/-- An incoming HTTP request: method and URL.  Conditional and range
headers are not modelled separately; their effect lives in `Bucket.get`. -/
structure Request where
  method : String
  url : Url
deriving DecidableEq

/-- An HTTP response: status, explicitly-set headers in order, and body. -/
structure Response where
  status : Nat
  headers : List (String × String)
  body : Option String
deriving DecidableEq

/-- The pagination loop of `listAll`: call `listFn` with the current cursor,
collect the page's objects, and while the page is truncated repeat with the
returned cursor.  `fuel` bounds the number of store calls (the source
relies on the store's guarantee of eventual non-truncation); `none` is
returned when fuel runs out before a non-truncated page.  The second
component of the result is the list of cursors passed, one per store
call. -/
def listAllGo (listFn : Option String → ListResult) :
    Nat → Option String → Option (List R2Obj × List (Option String))
  | 0, _ => none
  | Nat.succ fuel, cursor =>
    let r := listFn cursor
    if r.truncated then
      match listAllGo listFn fuel (some r.cursor) with
      | none => none
      | some (objs, calls) => some (r.objects ++ objs, cursor :: calls)
    else
      some (r.objects, [cursor])

/-- The `listAll(bucket, prefix, isRecursive)` entry: delimiter is `/` unless
recursive, first call carries no cursor. -/
def listAll (bucket : Bucket) (pfx : String) (isRecursive : Bool) (fuel : Nat) :
    Option (List R2Obj × List (Option String)) :=
  listAllGo (fun c => bucket.list pfx (if isRecursive then none else some "/") c) fuel none

/-- The `make_resource_path` function: pathname without its leading `/`, and with a
single trailing `/` removed. -/
def make_resource_path (request : Request) : String :=
  let path := strDrop request.url.pathname 1
  if strEndsWith path "/" then strDropRight path 1 else path

/-- The `calcContentRange(object)` function: computed in `Int` because the source's JS
arithmetic can go negative (e.g. a suffix larger than the object). -/
def calcContentRange (object : R2Obj) : Int × Int :=
  match object.range with
  | none => (0, (object.size : Int) - 1)
  | some (R2Range.suffix k) => ((object.size : Int) - (k : Int), (object.size : Int) - 1)
  | some (R2Range.offsetLength off len) =>
    let rangeOffset : Int := ((off.getD 0 : Nat) : Int)
    let length : Int :=
      match len with
      | some l => (l : Int)
      | none => (object.size : Int) - rangeOffset
    (rangeOffset, min (rangeOffset + length - 1) ((object.size : Int) - 1))

/-- Render one optional response header. -/
def optHeader (nm : String) (v : Option String) : List (String × String) :=
  match v with
  | some s => [(nm, s)]
  | none => []

/-- The successful-fetch arm of `handle_get`: status 206 when a range is
present and the resolved content length differs from the object size, else
200; headers assembled in the source's literal order. -/
def assembleObjectResponse (object : R2Obj) (body : String) : Response :=
  let rc := calcContentRange object
  let rangeOffset := rc.1
  let rangeEnd := rc.2
  let contentLength := rangeEnd - rangeOffset + 1
  { status := if object.range.isSome = true ∧ contentLength ≠ (object.size : Int) then 206 else 200
    headers :=
      [ ("Content-Type", (object.httpMetadata.bind fun m => m.contentType).getD "application/octet-stream")
      , ("Content-Length", toString contentLength)
      , ("Content-Range", "bytes " ++ toString rangeOffset ++ "-" ++ toString rangeEnd ++ "/" ++ toString (object.size : Nat)) ]
      ++ optHeader "Content-Disposition" (object.httpMetadata.bind fun m => m.contentDisposition)
      ++ optHeader "Content-Encoding" (object.httpMetadata.bind fun m => m.contentEncoding)
      ++ optHeader "Content-Language" (object.httpMetadata.bind fun m => m.contentLanguage)
      ++ optHeader "Cache-Control" (object.httpMetadata.bind fun m => m.cacheControl)
      ++ optHeader "Cache-Expiry" (object.httpMetadata.bind fun m => m.cacheExpiry)
    body := some body }

/-- One `<a ...>...</a><br>` anchor. -/
def anchorHtml (href label : String) : String :=
  "<a href=\"" ++ href ++ "\">" ++ label ++ "</a><br>"

/-- The parent-directory link prepended for non-root listings. -/
def parentAnchor : String :=
  anchorHtml "../" ".."

/-- The anchor rendered for one listing entry: href is `/` + key, with `/`
appended when the custom metadata marks a collection; label is the
`contentDisposition` metadata, else the key with the listing prefix
stripped. -/
def entryAnchor (pfx : String) (o : R2Obj) : String :=
  anchorHtml
    ("/" ++ (o.key ++ (if o.customMetadata.lookup "resourcetype" == some "<collection />" then "/" else "")))
    ((o.httpMetadata.bind fun m => m.contentDisposition).getD (strDrop o.key pfx.length))

/-- The directory listing loop: one anchor per object, skipping any entry
whose key equals the requested resource path. -/
def dirLinks (resource_path pfx : String) : List R2Obj → List String
  | [] => []
  | o :: rest =>
    if o.key = resource_path then dirLinks resource_path pfx rest
    else entryAnchor pfx o :: dirLinks resource_path pfx rest

/-- The listing prefix used for a directory request: `resource_path + "/"`
when non-root. -/
def dirPrefix (resource_path : String) : String :=
  if resource_path = "" then resource_path else resource_path ++ "/"

/-- The `pageSource` HTML template with the generated links spliced in. -/
def pageTemplate (page : String) : String :=
  "<!DOCTYPE html><html lang=\"en\"><head><meta charset=\"UTF-8\"><meta name=\"viewport\" content=\"width=device-width,initial-scale=1.0\"><title>R2Storage</title><style>*\x7bbox-sizing:border-box;\x7dbody\x7bpadding:10px;font-family:\x27Segoe UI\x27,\x27Circular\x27,\x27Roboto\x27,\x27Lato\x27,\x27Helvetica Neue\x27,\x27Arial Rounded MT Bold\x27,\x27sans-serif\x27;\x7da\x7bdisplay:inline-block;width:100%;color:#000;text-decoration:none;padding:5px 10px;cursor:pointer;border-radius:5px;\x7da:hover\x7bbackground-color:#60C590;color:white;\x7da[href=\"../\"]\x7bbackground-color:#cbd5e1;\x7d</style></head><body><h1>R2 Storage</h1><div>" ++ page ++ "</div></body></html>"

/-- The `handle_get` handler: the full URL string ending in `/` selects the directory
branch (enumerate + render); otherwise fetch the object and assemble the
response.  Returns `none` only when pagination fuel runs out; the second
component is the trace of store operations performed. -/
def handle_get (bucket : Bucket) (fuel : Nat) (request : Request) :
    Option (Response × List StoreOp) :=
  let resource_path := make_resource_path request
  if strEndsWith (urlString request.url) "/" then
    let pfx := dirPrefix resource_path
    let hd := if resource_path = "" then "" else parentAnchor
    match listAll bucket pfx false fuel with
    | none => none
    | some (objs, cursors) =>
      let page := hd ++ String.join (dirLinks resource_path pfx objs)
      some
        ( { status := 200
            headers := [("Content-Type", "text/html; charset=utf-8")]
            body := some (pageTemplate page) }
        , cursors.map fun c => StoreOp.listOp pfx (some "/") c )
  else
    match bucket.get resource_path with
    | GetResult.missing =>
      some ({ status := 404, headers := [], body := some "Not Found" },
        [StoreOp.getOp resource_path])
    | GetResult.noBody _ =>
      some ({ status := 412, headers := [], body := some "Precondition Failed" },
        [StoreOp.getOp resource_path])
    | GetResult.withBody object body =>
      some (assembleObjectResponse object body, [StoreOp.getOp resource_path])

/-- The `handle_head` handler: run `handle_get` fully, keep status and headers, drop
the body. -/
def handle_head (bucket : Bucket) (fuel : Nat) (request : Request) :
    Option (Response × List StoreOp) :=
  match handle_get bucket fuel request with
  | none => none
  | some (resp, ops) =>
    some ({ status := resp.status, headers := resp.headers, body := none }, ops)

/-- The `SUPPORT_METHODS` list. -/
def SUPPORT_METHODS : List String := ["OPTIONS", "GET", "HEAD"]

/-- The `dispatch_handler` function: route by method; OPTIONS is answered directly,
unknown methods get 405, both with the `Allow` header. -/
def dispatch_handler (bucket : Bucket) (fuel : Nat) (request : Request) :
    Option (Response × List StoreOp) :=
  if request.method = "OPTIONS" then
    some
      ( { status := 204
          headers := [("Allow", String.intercalate ", " SUPPORT_METHODS)]
          body := none }
      , [] )
  else if request.method = "HEAD" then
    handle_head bucket fuel request
  else if request.method = "GET" then
    handle_get bucket fuel request
  else
    some
      ( { status := 405
          headers := [("Allow", String.intercalate ", " SUPPORT_METHODS)]
          body := some "Method Not Allowed" }
      , [] )

/-- The exported `fetch` entry point: the static public-path gate, then
dispatch. -/
def fetchHandler (bucket : Bucket) (fuel : Nat) (request : Request) :
    Option (Response × List StoreOp) :=
  let is_public_path :=
    strStartsWith request.url.pathname "/public/" || request.url.pathname == "/public"
  if is_public_path then
    dispatch_handler bucket fuel request
  else
    some ({ status := 401, headers := [], body := some "Unauthorized" }, [])

/-! Reference definitions written from the spec, for refinement claims. -/

/-- Reference Range Resolver, written from the spec's words for claim C2:
no range gives `(0, S-1)`; a suffix range of `k` bytes gives `(S-k, S-1)`;
an offset/length range gives offset `offset ?? 0` and end
`min(offset + (length ?? (S - offset)) - 1, S - 1)`. -/
def specRangeResolver (S : Nat) (range : Option R2Range) : Int × Int :=
  match range with
  | none => (0, (S : Int) - 1)
  | some (R2Range.suffix k) => ((S : Int) - (k : Int), (S : Int) - 1)
  | some (R2Range.offsetLength off len) =>
    let rangeOffset : Int := ((off.getD 0 : Nat) : Int)
    let effLength : Int :=
      match len with
      | some l => (l : Int)
      | none => (S : Int) - rangeOffset
    (rangeOffset, min (rangeOffset + effLength - 1) ((S : Int) - 1))

/-- A requested range that is in-bounds for an object of size `S`: a suffix
of at least one and at most `S` bytes, or an offset within the object with
a positive length when one is given. -/
def validRange (S : Nat) : Option R2Range → Bool
  | none => true
  | some (R2Range.suffix k) => decide (1 ≤ k) && decide (k ≤ S)
  | some (R2Range.offsetLength off len) =>
    decide (off.getD 0 ≤ S - 1) &&
      (match len with
       | some l => decide (1 ≤ l)
       | none => true)

/-! Theorems settling the claims. -/

/-- C1: for every fetched object the response status is 206 exactly when a
range is present on the object and the resolved content length
(`rangeEnd - rangeOffset + 1`) differs from the object's size; in every
other case the status is 200. -/
theorem c1_partial_iff_range_and_different_length (object : R2Obj) (body : String) :
    ((assembleObjectResponse object body).status = 206 ↔
      object.range.isSome = true ∧
        (calcContentRange object).2 - (calcContentRange object).1 + 1 ≠ (object.size : Int)) ∧
    ((assembleObjectResponse object body).status = 206 ∨
      (assembleObjectResponse object body).status = 200) := by
  simp only [assembleObjectResponse]
  constructor
  · split
    · rename_i h
      simpa using h
    · rename_i h
      constructor
      · intro hc
        exact absurd hc (by decide)
      · intro hc
        exact absurd hc h
  · split
    · exact Or.inl rfl
    · exact Or.inr rfl

/-- C2: on every object whose range, when it is a suffix range, asks for at
most the object's size, `calcContentRange` agrees with the reference
resolver written from the spec. -/
theorem c2_resolver_matches_reference (object : R2Obj)
    (_hk : ∀ k, object.range = some (R2Range.suffix k) → k ≤ object.size) :
    calcContentRange object = specRangeResolver object.size object.range := by
  cases hr : object.range with
  | none => simp [calcContentRange, specRangeResolver, hr]
  | some r =>
    cases r with
    | suffix k => simp [calcContentRange, specRangeResolver, hr]
    | offsetLength off len => simp [calcContentRange, specRangeResolver, hr]

def objC2 : R2Obj :=
  { key := "f.txt", size := 10, httpMetadata := none, customMetadata := []
    range := some (R2Range.suffix 3) }

/-- Witness for C2 at a concrete suffix-range object. -/
theorem c2_witness :
    (∀ k, objC2.range = some (R2Range.suffix k) → k ≤ objC2.size) ∧
      calcContentRange objC2 = specRangeResolver objC2.size objC2.range := by
  have h : ∀ k, objC2.range = some (R2Range.suffix k) → k ≤ objC2.size := by
    intro k hk
    simp [objC2] at hk ⊢
    omega
  exact ⟨h, c2_resolver_matches_reference objC2 h⟩

def objC3 : R2Obj :=
  { key := "a", size := 5, httpMetadata := none, customMetadata := []
    range := some (R2Range.suffix 10) }

/-- C3 counterexample: a suffix range larger than the object (size 5,
suffix 10) makes `calcContentRange` return offset `-5`: the claimed bound
`0 <= rangeOffset <= rangeEnd <= max(S-1,0)` fails, and nothing is clamped
to 0. -/
theorem c3_counterexample :
    ¬ (0 ≤ (calcContentRange objC3).1 ∧
        (calcContentRange objC3).1 ≤ (calcContentRange objC3).2 ∧
        (calcContentRange objC3).2 ≤ max ((objC3.size : Int) - 1) 0) := by
  decide

/-- C3 amended: for a non-empty object and an in-bounds range (suffix
between 1 and `S`; offset at most `S-1` with positive length when given)
the resolved window satisfies
`0 <= rangeOffset <= rangeEnd <= max(S-1, 0)`. -/
theorem c3_amended_bounds (object : R2Obj) (h1 : 1 ≤ object.size)
    (h2 : validRange object.size object.range = true) :
    0 ≤ (calcContentRange object).1 ∧
      (calcContentRange object).1 ≤ (calcContentRange object).2 ∧
      (calcContentRange object).2 ≤ max ((object.size : Int) - 1) 0 := by
  cases hr : object.range with
  | none =>
    simp only [calcContentRange, hr]
    constructor
    · omega
    constructor
    · omega
    · simp [Int.max_def]
      split <;> omega
  | some r =>
    cases r with
    | suffix k =>
      rw [hr] at h2
      simp only [validRange, Bool.and_eq_true, decide_eq_true_eq] at h2
      simp only [calcContentRange, hr]
      simp only [Int.max_def]
      split <;> (constructor; omega; constructor <;> omega)
    | offsetLength off len =>
      rw [hr] at h2
      simp only [validRange, Bool.and_eq_true, decide_eq_true_eq] at h2
      obtain ⟨ho, hl⟩ := h2
      cases len with
      | none =>
        simp only [calcContentRange, hr]
        simp only [Int.min_def, Int.max_def]
        split <;> split <;> (constructor; omega; constructor <;> omega)
      | some l =>
        simp only [decide_eq_true_eq] at hl
        simp only [calcContentRange, hr]
        simp only [Int.min_def, Int.max_def]
        split <;> split <;> (constructor; omega; constructor <;> omega)

def objC3w : R2Obj :=
  { key := "b", size := 10, httpMetadata := none, customMetadata := []
    range := some (R2Range.offsetLength (some 2) (some 5)) }

/-- Witness for the amended C3 on a concrete in-bounds offset/length
range. -/
theorem c3_amended_witness :
    1 ≤ objC3w.size ∧ validRange objC3w.size objC3w.range = true ∧
      (0 ≤ (calcContentRange objC3w).1 ∧
        (calcContentRange objC3w).1 ≤ (calcContentRange objC3w).2 ∧
        (calcContentRange objC3w).2 ≤ max ((objC3w.size : Int) - 1) 0) :=
  ⟨by decide, by decide, c3_amended_bounds objC3w (by decide) (by decide)⟩

/-- C8: the directory listing loop renders exactly one link per enumerated
entry whose key differs from the requested resource path — entries equal to
the resource path produce no link — and each link's href is `/` plus the
entry's key, with `/` appended when the entry's custom metadata marks a
collection. -/
theorem c8_links_skip_self (resource_path pfx : String) (objs : List R2Obj) :
    dirLinks resource_path pfx objs =
      (objs.filter fun o => o.key != resource_path).map fun o =>
        anchorHtml
          ("/" ++ (o.key ++ (if o.customMetadata.lookup "resourcetype" == some "<collection />" then "/" else "")))
          ((o.httpMetadata.bind fun m => m.contentDisposition).getD (strDrop o.key pfx.length)) := by
  induction objs with
  | nil => simp [dirLinks]
  | cons o rest ih =>
    by_cases h : o.key = resource_path
    · simp [dirLinks, h, ih]
    · simp [dirLinks, h, ih, entryAnchor]

/-- The relation `PageChain listFn c pages`: starting from cursor `c`, the store answers
the successive calls with exactly `pages`; every page but the last is
truncated and hands its cursor to the next call, and the last page is not
truncated. -/
def PageChain (listFn : Option String → ListResult) :
    Option String → List ListResult → Prop
  | _, [] => False
  | c, [p] => listFn c = p ∧ p.truncated = false
  | c, p :: q :: rest =>
    listFn c = p ∧ p.truncated = true ∧ PageChain listFn (some p.cursor) (q :: rest)

/-- C4: when the store answers with a chain of pages, truncated except the
last, the pagination loop yields the concatenation of all pages' objects in
page order; it makes one store call per page — as many calls as pages,
i.e. M+1 for M truncated pages — the first with no cursor and each later
one with the cursor of the preceding truncated page. -/
theorem c4_pagination_exhaustive (listFn : Option String → ListResult)
    (pages : List ListResult) (c : Option String) (fuel : Nat)
    (hchain : PageChain listFn c pages) (hfuel : pages.length ≤ fuel) :
    listAllGo listFn fuel c =
      some ((pages.map fun p => p.objects).flatten,
        c :: (pages.dropLast.map fun p => some p.cursor)) ∧
      (c :: (pages.dropLast.map fun p => some p.cursor)).length = pages.length := by
  induction pages generalizing c fuel with
  | nil => exact absurd hchain (by simp [PageChain])
  | cons p rest ih =>
    cases rest with
    | nil =>
      obtain ⟨hc, ht⟩ := hchain
      obtain ⟨f, rfl⟩ : ∃ f, fuel = f + 1 := by
        cases fuel with
        | zero => simp at hfuel
        | succ f => exact ⟨f, rfl⟩
      constructor
      · simp [listAllGo, hc, ht]
      · simp
    | cons q rest2 =>
      obtain ⟨hc, ht, hrest⟩ := hchain
      obtain ⟨f, rfl⟩ : ∃ f, fuel = f + 1 := by
        cases fuel with
        | zero => simp at hfuel
        | succ f => exact ⟨f, rfl⟩
      have hf : (q :: rest2).length ≤ f := by
        simp at hfuel
        simpa using hfuel
      obtain ⟨hrec, hlen⟩ := ih (some p.cursor) f hrest hf
      constructor
      · simp only [listAllGo, hc, ht, if_true, hrec]
        simp
      · simp


def pgA : R2Obj :=
  { key := "public/a.txt", size := 1, httpMetadata := none, customMetadata := [], range := none }

def pgB : R2Obj :=
  { key := "public/b.txt", size := 2, httpMetadata := none, customMetadata := [], range := none }

def pg1 : ListResult := { objects := [pgA], truncated := true, cursor := "cur1" }

def pg2 : ListResult := { objects := [pgB], truncated := false, cursor := "" }

def listFnW : Option String → ListResult
  | none => pg1
  | some _ => pg2

/-- Witness for C4: two pages, the first truncated with cursor `cur1`; two
store calls are made, at cursors `none` and `some "cur1"`, and the two
pages' objects are concatenated. -/
theorem c4_witness :
    PageChain listFnW none [pg1, pg2] ∧ [pg1, pg2].length ≤ 2 ∧
      (listAllGo listFnW 2 none =
        some (([pg1, pg2].map fun p => p.objects).flatten,
          none :: ([pg1, pg2].dropLast.map fun p => some p.cursor)) ∧
        (none :: ([pg1, pg2].dropLast.map fun p => some p.cursor)).length = [pg1, pg2].length) :=
  ⟨⟨rfl, rfl, rfl, rfl⟩, by decide,
    c4_pagination_exhaustive listFnW [pg1, pg2] none 2 ⟨rfl, rfl, rfl, rfl⟩ (by decide)⟩

/-- A bucket with no objects at all. -/
def emptyBucket : Bucket :=
  { list := fun _ _ _ => { objects := [], truncated := false, cursor := "" }
    get := fun _ => GetResult.missing }

/-- Helper: when the full URL string ends in `/`, any answer `handle_get`
produces is the 200 HTML directory page, and every store operation in its
trace is a delimited list call on the directory prefix. -/
theorem handle_get_dir_branch (bucket : Bucket) (fuel : Nat) (request : Request)
    (resp : Response) (ops : List StoreOp)
    (hdir : strEndsWith (urlString request.url) "/" = true)
    (h : handle_get bucket fuel request = some (resp, ops)) :
    resp.status = 200 ∧
      resp.headers = [("Content-Type", "text/html; charset=utf-8")] ∧
      ∀ op ∈ ops, ∃ c,
        op = StoreOp.listOp (dirPrefix (make_resource_path request)) (some "/") c := by
  simp only [handle_get, hdir, if_true] at h
  cases hl : listAll bucket (dirPrefix (make_resource_path request)) false fuel with
  | none =>
    rw [hl] at h
    exact absurd h (by simp)
  | some pr =>
    obtain ⟨objs, cursors⟩ := pr
    rw [hl] at h
    simp only [Option.some.injEq, Prod.mk.injEq] at h
    obtain ⟨hresp, hops⟩ := h
    subst hresp
    subst hops
    refine ⟨rfl, rfl, ?_⟩
    intro op hop
    obtain ⟨c, _, hc⟩ := List.mem_map.mp hop
    exact ⟨c, hc.symm⟩

/-- Helper: when the full URL string does not end in `/`, `handle_get`
always answers (no fuel needed) and its trace is the single store `get` on
the resource path. -/
theorem handle_get_object_branch (bucket : Bucket) (fuel : Nat) (request : Request)
    (hdir : strEndsWith (urlString request.url) "/" = false) :
    ∃ resp, handle_get bucket fuel request =
      some (resp, [StoreOp.getOp (make_resource_path request)]) := by
  cases hg : bucket.get (make_resource_path request) with
  | missing =>
    refine ⟨{ status := 404, headers := [], body := some "Not Found" }, ?_⟩
    simp [handle_get, hdir, hg]
  | noBody o =>
    refine ⟨{ status := 412, headers := [], body := some "Precondition Failed" }, ?_⟩
    simp [handle_get, hdir, hg]
  | withBody o b =>
    refine ⟨assembleObjectResponse o b, ?_⟩
    simp [handle_get, hdir, hg]

def bucketC5 : Bucket :=
  { list := fun _ _ _ => { objects := [], truncated := false, cursor := "" }
    get := fun k =>
      GetResult.noBody { key := k, size := 3, httpMetadata := none, customMetadata := [], range := none } }

def reqC5 : Request :=
  { method := "GET", url := { base := "http://host", pathname := "/public/x.txt", search := "" } }

/-- C5 counterexample: on a conditional-mismatch fetch the code answers 412
with the plain-text body `Precondition Failed` — the response body is not
empty, contradicting the claimed "no body". -/
theorem c5_counterexample :
    handle_get bucketC5 1 reqC5 =
      some ({ status := 412, headers := [], body := some "Precondition Failed" },
        [StoreOp.getOp "public/x.txt"]) ∧
      ((some "Precondition Failed" : Option String) ≠ none) := by
  exact ⟨by decide, by decide⟩

/-- C5 amended: when the store's `get` returns an object without a body,
the response has status 412, a plain-text body `Precondition Failed`, and
no content headers are set. -/
theorem c5_amended_precondition_failed (bucket : Bucket) (fuel : Nat) (request : Request)
    (obj : R2Obj)
    (hdir : strEndsWith (urlString request.url) "/" = false)
    (hget : bucket.get (make_resource_path request) = GetResult.noBody obj) :
    handle_get bucket fuel request =
      some ({ status := 412, headers := [], body := some "Precondition Failed" },
        [StoreOp.getOp (make_resource_path request)]) := by
  simp [handle_get, hdir, hget]

def objC5w : R2Obj :=
  { key := "public/x.txt", size := 3, httpMetadata := none, customMetadata := [], range := none }

/-- Witness for the amended C5 at a concrete request and bucket. -/
theorem c5_amended_witness :
    strEndsWith (urlString reqC5.url) "/" = false ∧
      bucketC5.get (make_resource_path reqC5) = GetResult.noBody objC5w ∧
      handle_get bucketC5 1 reqC5 =
        some ({ status := 412, headers := [], body := some "Precondition Failed" },
          [StoreOp.getOp (make_resource_path reqC5)]) :=
  ⟨by decide, by decide,
    c5_amended_precondition_failed bucketC5 1 reqC5 objC5w (by decide) (by decide)⟩

/-- C6: whenever the GET handling of a request answers, HEAD handling of
the same request answers with the same status, the same headers and the
same store-operation trace, but an empty body. -/
theorem c6_head_matches_get (bucket : Bucket) (fuel : Nat) (request : Request)
    (resp : Response) (ops : List StoreOp)
    (h : handle_get bucket fuel request = some (resp, ops)) :
    handle_head bucket fuel request =
      some ({ status := resp.status, headers := resp.headers, body := none }, ops) := by
  simp [handle_head, h]

def bucketC6 : Bucket :=
  { list := fun _ _ _ => { objects := [], truncated := false, cursor := "" }
    get := fun k =>
      GetResult.withBody
        { key := k, size := 4, httpMetadata := none, customMetadata := [], range := none } "data" }

def reqC6 : Request :=
  { method := "HEAD", url := { base := "http://h", pathname := "/public/f.txt", search := "" } }

def outC6 : Response × List StoreOp :=
  (handle_get bucketC6 1 reqC6).getD ({ status := 0, headers := [], body := none }, [])

/-- Witness for C6 at a concrete object fetch. -/
theorem c6_witness :
    handle_get bucketC6 1 reqC6 = some (outC6.1, outC6.2) ∧
      handle_head bucketC6 1 reqC6 =
        some ({ status := outC6.1.status, headers := outC6.1.headers, body := none }, outC6.2) :=
  ⟨rfl, c6_head_matches_get bucketC6 1 reqC6 outC6.1 outC6.2 rfl⟩

/-- C7: any request whose URL path fails the static public-prefix gate is
answered 401 with an empty store-operation trace — no list or get is
performed — whatever the method is. -/
theorem c7_unauthorized_no_store_access (bucket : Bucket) (fuel : Nat) (request : Request)
    (h : (strStartsWith request.url.pathname "/public/" || request.url.pathname == "/public") = false) :
    fetchHandler bucket fuel request =
      some ({ status := 401, headers := [], body := some "Unauthorized" }, []) := by
  simp [fetchHandler, h]

def reqC7 : Request :=
  { method := "OPTIONS", url := { base := "http://h", pathname := "/private/x", search := "" } }

/-- Witness for C7: an OPTIONS request outside the public prefix gets 401
and no store access. -/
theorem c7_witness :
    ((strStartsWith reqC7.url.pathname "/public/" || reqC7.url.pathname == "/public") = false) ∧
      fetchHandler emptyBucket 1 reqC7 =
        some ({ status := 401, headers := [], body := some "Unauthorized" }, []) :=
  ⟨by decide, c7_unauthorized_no_store_access emptyBucket 1 reqC7 (by decide)⟩

def reqC9 : Request :=
  { method := "GET", url := { base := "http://h", pathname := "/public/d/", search := "?q=1" } }

/-- C9 counterexample: a GET whose URL *path* ends in `/` but which carries
a query string is not handled by the directory path — the code tests the
full URL string, so this request performs a store `get` and is answered
404. -/
theorem c9_counterexample :
    strEndsWith reqC9.url.pathname "/" = true ∧
      strEndsWith (urlString reqC9.url) "/" = false ∧
      handle_get emptyBucket 1 reqC9 =
        some ({ status := 404, headers := [], body := some "Not Found" },
          [StoreOp.getOp "public/d"]) := by
  exact ⟨by decide, by decide, by decide⟩

/-- C9 amended: the dispatch between the two GET paths is decided by the
full URL string, not the path: when the full URL ends in `/` any answer is
the directory page with only delimited list calls in its trace; when it
does not, the request is handled by the object fetch path, with the single
store `get` in its trace. -/
theorem c9_amended_dispatch_on_full_url (bucket : Bucket) (fuel : Nat) (request : Request) :
    (strEndsWith (urlString request.url) "/" = true →
      ∀ resp ops, handle_get bucket fuel request = some (resp, ops) →
        resp.status = 200 ∧
          resp.headers = [("Content-Type", "text/html; charset=utf-8")] ∧
          ∀ op ∈ ops, ∃ c,
            op = StoreOp.listOp (dirPrefix (make_resource_path request)) (some "/") c) ∧
    (strEndsWith (urlString request.url) "/" = false →
      ∃ resp, handle_get bucket fuel request =
        some (resp, [StoreOp.getOp (make_resource_path request)])) :=
  ⟨fun hdir resp ops h => handle_get_dir_branch bucket fuel request resp ops hdir h,
   fun hdir => handle_get_object_branch bucket fuel request hdir⟩

def reqC9w : Request :=
  { method := "GET", url := { base := "http://h", pathname := "/public/d/", search := "" } }

def outC9w : Response × List StoreOp :=
  (handle_get emptyBucket 1 reqC9w).getD ({ status := 0, headers := [], body := none }, [])

/-- Witness for the amended C9 at a concrete query-free directory URL. -/
theorem c9_amended_witness :
    strEndsWith (urlString reqC9w.url) "/" = true ∧
      (outC9w.1.status = 200 ∧
        outC9w.1.headers = [("Content-Type", "text/html; charset=utf-8")] ∧
        ∀ op ∈ outC9w.2, ∃ c,
          op = StoreOp.listOp (dirPrefix (make_resource_path reqC9w)) (some "/") c) :=
  ⟨by decide, (c9_amended_dispatch_on_full_url emptyBucket 1 reqC9w).1 (by decide) outC9w.1 outC9w.2 rfl⟩

/-- C10: an authorized GET whose full URL ends in `/` is, whenever the
enumeration completes, answered 200 with Content-Type
`text/html; charset=utf-8` — also when the listing is empty; it is never a
404. -/
theorem c10_dir_listing_always_200 (bucket : Bucket) (fuel : Nat) (request : Request)
    (resp : Response) (ops : List StoreOp)
    (hpub : (strStartsWith request.url.pathname "/public/" || request.url.pathname == "/public") = true)
    (hmethod : request.method = "GET")
    (hdir : strEndsWith (urlString request.url) "/" = true)
    (h : fetchHandler bucket fuel request = some (resp, ops)) :
    resp.status = 200 ∧ resp.headers = [("Content-Type", "text/html; charset=utf-8")] := by
  simp only [fetchHandler, hpub, if_true] at h
  rw [dispatch_handler, hmethod] at h
  simp only [reduceIte] at h
  obtain ⟨h200, hct, -⟩ := handle_get_dir_branch bucket fuel request resp ops hdir h
  exact ⟨h200, hct⟩

def reqC10 : Request :=
  { method := "GET", url := { base := "http://h", pathname := "/public/e/", search := "" } }

def outC10 : Response × List StoreOp :=
  (fetchHandler emptyBucket 1 reqC10).getD ({ status := 0, headers := [], body := none }, [])

/-- Witness for C10: listing a prefix with no objects under it still yields
a 200 HTML page. -/
theorem c10_witness :
    (strStartsWith reqC10.url.pathname "/public/" || reqC10.url.pathname == "/public") = true ∧
      reqC10.method = "GET" ∧
      strEndsWith (urlString reqC10.url) "/" = true ∧
      (outC10.1.status = 200 ∧
        outC10.1.headers = [("Content-Type", "text/html; charset=utf-8")]) :=
  ⟨by decide, rfl, by decide,
    c10_dir_listing_always_200 emptyBucket 1 reqC10 outC10.1 outC10.2 (by decide) rfl (by decide) rfl⟩

end R2Webdav
